import Mathlib

/-!
Verification development for the angr execution-dispatch and library-call
modeling core (`project.py`, `procedures/java_util/iterator.py`,
`engines/soot/expressions/constants.py`).

The Python source is shallowly embedded: machine integers are `Nat` with
explicit `% 2^32` where overflow matters, fallible code returns `Option` /
error-carrying results, and mutable state (the SimProcedure registry, the
patched jump table, the Java heap) is passed explicitly.
-/

namespace Angr

/-! ### MD5 (the `md5` module used by `Project.set_sim_procedure`)

A byte-level implementation of the MD5 digest, needed because
`set_sim_procedure` derives synthetic addresses from
`md5.md5(lib + "_" + func_name).digest()`.  All words are `Nat` reduced
mod 2^32. -/

def M32 : Nat := 4294967296

/-- Left-rotate a 32-bit word by `n` bits. -/
def rotl (x n : Nat) : Nat := ((x <<< n) ||| (x >>> (32 - n))) % M32

/-- The 64 MD5 round constants `K[i] = floor(|sin(i+1)| * 2^32)`. -/
def md5K : List Nat :=
  [3614090360, 3905402710, 606105819, 3250441966, 4118548399, 1200080426,
   2821735955, 4249261313, 1770035416, 2336552879, 4294925233, 2304563134,
   1804603682, 4254626195, 2792965006, 1236535329, 4129170786, 3225465664,
   643717713, 3921069994, 3593408605, 38016083, 3634488961, 3889429448,
   568446438, 3275163606, 4107603335, 1163531501, 2850285829, 4243563512,
   1735328473, 2368359562, 4294588738, 2272392833, 1839030562, 4259657740,
   2763975236, 1272893353, 4139469664, 3200236656, 681279174, 3936430074,
   3572445317, 76029189, 3654602809, 3873151461, 530742520, 3299628645,
   4096336452, 1126891415, 2878612391, 4237533241, 1700485571, 2399980690,
   4293915773, 2240044497, 1873313359, 4264355552, 2734768916, 1309151649,
   4149444226, 3174756917, 718787259, 3951481745]

/-- The 64 MD5 per-round left-rotation amounts. -/
def md5S : List Nat :=
  [7, 12, 17, 22, 7, 12, 17, 22, 7, 12, 17, 22, 7, 12, 17, 22,
   5, 9, 14, 20, 5, 9, 14, 20, 5, 9, 14, 20, 5, 9, 14, 20,
   4, 11, 16, 23, 4, 11, 16, 23, 4, 11, 16, 23, 4, 11, 16, 23,
   6, 10, 15, 21, 6, 10, 15, 21, 6, 10, 15, 21, 6, 10, 15, 21]

/-- One MD5 round: state is the register quadruple `(a, b, c, d)`. -/
def md5Step (M : List Nat) (st : Nat × Nat × Nat × Nat) (i : Nat) :
    Nat × Nat × Nat × Nat :=
  let (a, b, c, d) := st
  let fg : Nat × Nat :=
    if i < 16 then ((b &&& c) ||| ((b ^^^ (M32 - 1)) &&& d), i)
    else if i < 32 then ((d &&& b) ||| ((d ^^^ (M32 - 1)) &&& c), (5 * i + 1) % 16)
    else if i < 48 then (b ^^^ c ^^^ d, (3 * i + 5) % 16)
    else (c ^^^ (b ||| (d ^^^ (M32 - 1))), (7 * i) % 16)
  let f := (fg.1 + a + md5K.getD i 0 + M.getD fg.2 0) % M32
  (d, (b + rotl f (md5S.getD i 0)) % M32, b, c)

/-- Process one 16-word block, updating the running digest state. -/
def md5Block (M : List Nat) (st : Nat × Nat × Nat × Nat) :
    Nat × Nat × Nat × Nat :=
  let (a, b, c, d) := (List.range 64).foldl (md5Step M) st
  ((st.1 + a) % M32, (st.2.1 + b) % M32, (st.2.2.1 + c) % M32,
   (st.2.2.2 + d) % M32)

/-- Fold over successive 16-word blocks. -/
def md5Blocks : (Nat × Nat × Nat × Nat) → List Nat → Nat × Nat × Nat × Nat
  | st, m0 :: m1 :: m2 :: m3 :: m4 :: m5 :: m6 :: m7 :: m8 :: m9 :: m10 ::
      m11 :: m12 :: m13 :: m14 :: m15 :: rest =>
    md5Blocks
      (md5Block [m0, m1, m2, m3, m4, m5, m6, m7, m8, m9, m10, m11, m12,
                 m13, m14, m15] st) rest
  | st, _ => st

/-- Little-endian serialization of `v` into `n` bytes. -/
def leBytes : Nat → Nat → List Nat
  | 0, _ => []
  | n + 1, v => (v % 256) :: leBytes n (v / 256)

/-- Group a byte list into 32-bit little-endian words. -/
def toWordsLE : List Nat → List Nat
  | b0 :: b1 :: b2 :: b3 :: rest =>
    (b0 + 256 * b1 + 65536 * b2 + 16777216 * b3) :: toWordsLE rest
  | _ => []

/-- MD5 padding: `0x80`, zero bytes to 56 mod 64, then the 64-bit
little-endian bit length. -/
def md5Pad (msg : List Nat) : List Nat :=
  let len := msg.length
  msg ++ [128] ++ List.replicate ((119 - len % 64) % 64) 0 ++
    leBytes 8 ((len * 8) % (2 ^ 64))

/-- The 16-byte MD5 digest of a byte string. -/
def md5 (msg : List Nat) : List Nat :=
  let (a, b, c, d) :=
    md5Blocks (1732584193, 4023233417, 2562383102, 271733878)
      (toWordsLE (md5Pad msg))
  leBytes 4 a ++ leBytes 4 b ++ leBytes 4 c ++ leBytes 4 d

/-- UTF-8 encoding of a single code point. -/
def utf8Bytes (c : Nat) : List Nat :=
  if c < 128 then [c]
  else if c < 2048 then [192 + c / 64, 128 + c % 64]
  else if c < 65536 then [224 + c / 4096, 128 + c / 64 % 64, 128 + c % 64]
  else [240 + c / 262144, 128 + c / 4096 % 64, 128 + c / 64 % 64,
        128 + c % 64]

/-- The byte string of a Lean `String` (UTF-8). -/
def strBytes (s : String) : List Nat :=
  s.data.foldr (fun c acc => utf8Bytes c.toNat ++ acc) []

/-! ### Architecture descriptor and synthetic address allocation

`set_sim_procedure` (project.py:278-319) computes
`pseudo_addr = (struct.unpack(arch.struct_fmt, md5(lib + "_" + func).digest()[:arch.bits/8])[0] / 4) * 4`.
`struct_fmt` is modeled by its byte order (`bigEndian`). -/

structure Arch where
  bits : Nat
  bigEndian : Bool
  instruction_alignment : Nat
  name : String

/-- `struct.unpack` of an unsigned integer from a byte list in the
architecture's byte order. -/
def unpack (bigEndian : Bool) (bs : List Nat) : Nat :=
  if bigEndian then bs.foldl (fun acc b => acc * 256 + b) 0
  else bs.foldr (fun b acc => b + 256 * acc) 0

/-- The hashed pseudo-address for an arbitrary key string:
`(struct.unpack(arch.struct_fmt, md5(key).digest()[:arch.bits/8])[0] / 4) * 4`. -/
def allocateRaw (arch : Arch) (key : String) : Nat :=
  let hashed_bytes := (md5 (strBytes key)).take (arch.bits / 8)
  unpack arch.bigEndian hashed_bytes / 4 * 4

/-- Synthetic address of a `(library, symbol)` pair: the key is
`lib + "_" + func_name` (project.py:285-290). -/
def allocate (arch : Arch) (lib func : String) : Nat :=
  allocateRaw arch (lib ++ "_" ++ func)

/-! ### The SimProcedure registry

`self.sim_procedures` is a dict from pseudo-address to
`(SimProcedure class, kwargs)`.  SimProcedure classes are identified by
name; kwargs dicts map strings to addresses or strings
(`'exit_addr'`, `'resolves'`). -/

/-- A value stored in a SimProcedure kwargs dict. -/
inductive KVal where
  | addr (a : Nat)
  | str (s : String)
deriving DecidableEq, Repr

/-- A kwargs dict, as an association list. -/
abbrev KW := List (String × KVal)

/-- A SimProcedure class, identified by its name. -/
abbrev ProcClass := String

/-- Python dict lookup on an association list. -/
def alookup {α β : Type} [DecidableEq α] : List (α × β) → α → Option β
  | [], _ => none
  | (k, v) :: rest, a => if k = a then some v else alookup rest a

/-- Python dict assignment on an association list: replace in place, or
append a new entry. -/
def ainsert {α β : Type} [DecidableEq α] : List (α × β) → α → β → List (α × β)
  | [], a, b => [(a, b)]
  | (k, v) :: rest, a, b =>
    if k = a then (a, b) :: rest else (k, v) :: ainsert rest a b

/-- The `sim_procedures` registry: pseudo-address ↦ (class, kwargs). -/
abbrev Registry := List (Nat × (ProcClass × KW))

/-- The jump-table patches requested from the loader:
(binary id, symbol) ↦ patched target address.  Both the
`cle.IdaBin.resolve_import_with` and the `override_got_entry` branches of
`set_sim_procedure` request this same patch. -/
abbrev Got := List ((Nat × String) × Nat)

/-- Project state mutated by the binder: the registry and the patched
jump table. -/
structure ProjState where
  registry : Registry
  got : Got
deriving DecidableEq, Repr

/-- `is_sim_procedure` (project.py:268-269). -/
def is_sim_procedure (r : Registry) (hashed_addr : Nat) : Bool :=
  (alookup r hashed_addr).isSome

/-- The overwrite guard of `set_sim_procedure` (project.py:294-297): the
address is already bound to a *different* SimProcedure class. -/
def conflictAt (r : Registry) (a : Nat) (p : ProcClass) : Bool :=
  match alookup r a with
  | some (q, _) => decide (q ≠ p)
  | none => false

/-- The registry-level bind operation of `set_sim_procedure`
(project.py:292-310, stripped of address allocation and the
`__libc_start_main` configuration threading): refuse with only a warning
when the address already holds a different class, otherwise install. -/
def bindProc (r : Registry) (a : Nat) (p : ProcClass) (kw : KW) : Registry :=
  if conflictAt r a p then r else ainsert r a (p, kw)

/-- The `simuvex.procedures.SimProcedures` table: library name ↦
(function name ↦ SimProcedure class). -/
abbrev SPTable := List (String × List (String × ProcClass))

/-- `SimProcedures[lib][func]`, as an `Option`. -/
def spLookup (sp : SPTable) (lib func : String) : Option ProcClass :=
  match alookup sp lib with
  | some fs => alookup fs func
  | none => none

/-- Errors escaping the binder: `ValueError` from `list.remove`, and
`KeyError` from direct `SimProcedures[...]` indexing. -/
inductive BinderErr where
  | valueError
  | keyError
deriving DecidableEq, Repr

/-- `set_sim_procedure` (project.py:278-319).  `objId` identifies the
`binary` argument (only used as the patch target).  Returns the updated
state and a possible uncaught exception; an exception leaves the state
unchanged (it is raised before any mutation of this call). -/
def setSimProcedure (arch : Arch) (sp : SPTable) (objId : Nat)
    (lib func : String) (proc : ProcClass) (kwargs : Option KW)
    (st : ProjState) : ProjState × Option BinderErr :=
  let pseudo_addr := allocate arch lib func
  let kw := kwargs.getD []
  if conflictAt st.registry pseudo_addr proc then
    (st, none)
  else if func = "__libc_start_main" ∧ alookup kw "exit_addr" = none then
    match spLookup sp "libc.so.6" "exit" with
    | none => (st, some .keyError)
    | some exitProc =>
      let pa' := allocateRaw arch "__libc_start_main:exit"
      let reg1 := ainsert st.registry pa' (exitProc, [])
      let kw1 := ainsert kw "exit_addr" (.addr pa')
      ({ registry := ainsert reg1 pseudo_addr (proc, kw1),
         got := ainsert st.got (objId, func) pseudo_addr }, none)
  else
    ({ registry := ainsert st.registry pseudo_addr (proc, kw),
       got := ainsert st.got (objId, func) pseudo_addr }, none)

/-! ### The import binder (`use_sim_procedures`, project.py:204-251) -/

/-- The loader's view of one loaded object. -/
structure ObjInfo where
  id : Nat
  imports : List String
  resolvedImports : List String
  jmprel : List (String × Nat)
  minAddr : Nat
  maxAddr : Nat

/-- External inputs of the binder: architecture, the simuvex procedure
table, the exclusion predicate, `ignore_functions`, the loader's
dependency names (already basenamed) and the loaded objects
(`[main_binary] + shared_objects`). -/
structure BindEnv where
  arch : Arch
  simProcs : SPTable
  exclude : String → Bool
  ignore : List String
  dependencies : List String
  customDependencies : List String
  staticDeps : List String
  objs : List ObjInfo

/-- Python `set(...)` iteration, modeled as order-preserving
deduplication (a consistent but unspecified order). -/
def dedupAux : List String → List String → List String
  | _, [] => []
  | seen, x :: rest =>
    if seen.contains x then dedupAux seen rest
    else x :: dedupAux (x :: seen) rest

/-- `__find_sim_libraries` (project.py:177-202): normalize dependency
names with the fixed aliasing rules and keep those with simuvex models. -/
def findSimLibraries (env : BindEnv) : List String :=
  (dedupAux []
      (env.dependencies ++ env.customDependencies ++ env.staticDeps)).filterMap
    (fun lib0 =>
      let lib1 := if lib0 = "libc.so.0" then "libc.so.6" else lib0
      let lib := if lib1 = "ld-uClibc.so.0" then "ld-uClibc.so.6" else lib1
      if (alookup env.simProcs lib).isSome then some lib else none)

/-- Python `list.remove`: drop the first occurrence, or fail
(`ValueError`). -/
def removeOnce : List String → String → Option (List String)
  | [], _ => none
  | x :: rest, a =>
    if x = a then some rest else (removeOnce rest a).map (x :: ·)

/-- The inner `for lib in libs` loop of `use_sim_procedures`
(project.py:222-229) for one import `i`: every matching library binds
(there is no `break`), and each match removes `i` from the unresolved
list once. -/
def bindImportLibs (arch : Arch) (sp : SPTable) (objId : Nat) (i : String) :
    List String → ProjState × List String →
    (ProjState × List String) × Option BinderErr
  | [], s => (s, none)
  | lib :: libs, (st, unres) =>
    match alookup sp lib with
    | none => ((st, unres), some .keyError)
    | some simfun =>
      match alookup simfun i with
      | none => bindImportLibs arch sp objId i libs (st, unres)
      | some proc =>
        let (st', err) := setSimProcedure arch sp objId lib i proc none st
        match err with
        | some e => ((st', unres), some e)
        | none =>
          match removeOnce unres i with
          | none => ((st', unres), some .valueError)
          | some unres' => bindImportLibs arch sp objId i libs (st', unres')

/-- The `for i in functions` matched loop (project.py:217-229). -/
def bindImportsMatched (arch : Arch) (sp : SPTable)
    (exclude : String → Bool) (libs : List String) (objId : Nat) :
    List String → ProjState × List String →
    (ProjState × List String) × Option BinderErr
  | [], s => (s, none)
  | i :: is, s =>
    if exclude i then bindImportsMatched arch sp exclude libs objId is s
    else
      match bindImportLibs arch sp objId i libs s with
      | (s', none) => bindImportsMatched arch sp exclude libs objId is s'
      | (s', some e) => (s', some e)

/-- The `for i in unresolved` fallback loop (project.py:235-251): leave
the import to native code when it already resolves to an out-of-range
jump slot, otherwise bind the `ReturnUnconstrained` stub. -/
def bindUnresolved (arch : Arch) (sp : SPTable) (exclude : String → Bool)
    (ignore : List String) (obj : ObjInfo) :
    List String → ProjState → ProjState × Option BinderErr
  | [], st => (st, none)
  | i :: is, st =>
    if exclude i then bindUnresolved arch sp exclude ignore obj is st
    else
      let skipNative : Bool :=
        obj.resolvedImports.contains i && !(ignore.contains i) &&
          (match alookup obj.jmprel i with
           | some slot =>
             !(decide (obj.minAddr ≤ slot) && decide (slot ≤ obj.maxAddr))
           | none => false)
      if skipNative then bindUnresolved arch sp exclude ignore obj is st
      else
        match spLookup sp "stubs" "ReturnUnconstrained" with
        | none => (st, some .keyError)
        | some ru =>
          let (st', err) :=
            setSimProcedure arch sp obj.id "stubs" i ru
              (some [("resolves", .str i)]) st
          match err with
          | some e => (st', some e)
          | none => bindUnresolved arch sp exclude ignore obj is st'

/-- One object's pass of `use_sim_procedures` (project.py:210-251): the
unresolved list is extended with this object's imports, matched imports
are bound and removed, and what is left in the accumulated unresolved
list gets the stub. -/
def bindObj (arch : Arch) (sp : SPTable) (exclude : String → Bool)
    (ignore : List String) (libs : List String) (obj : ObjInfo)
    (s : ProjState × List String) :
    (ProjState × List String) × Option BinderErr :=
  let s1 : ProjState × List String := (s.1, s.2 ++ obj.imports)
  match bindImportsMatched arch sp exclude libs obj.id obj.imports s1 with
  | (s2, some e) => (s2, some e)
  | ((st2, unres2), none) =>
    match bindUnresolved arch sp exclude ignore obj unres2 st2 with
    | (st3, err) => ((st3, unres2), err)

/-- The `for obj in [main_binary] + shared_objects` loop. -/
def bindObjs (arch : Arch) (sp : SPTable) (exclude : String → Bool)
    (ignore : List String) (libs : List String) :
    List ObjInfo → ProjState × List String →
    (ProjState × List String) × Option BinderErr
  | [], s => (s, none)
  | obj :: objs, s =>
    match bindObj arch sp exclude ignore libs obj s with
    | (s', none) => bindObjs arch sp exclude ignore libs objs s'
    | (s', some e) => (s', some e)

/-- `use_sim_procedures` (project.py:204-251), returning the final
state and the uncaught exception, if any (mutations before the raise
persist, as in Python). -/
def useSimProcedures (env : BindEnv) (st : ProjState) :
    ProjState × Option BinderErr :=
  let libs := findSimLibraries env
  match bindObjs env.arch env.simProcs env.exclude env.ignore libs env.objs
      (st, []) with
  | ((st', _), err) => (st', err)

/-! ### Effect decomposition of the binder (used for the idempotence
analysis)

Every state mutation `use_sim_procedures` performs is a registry dict
assignment or a jump-table patch.  The `plan*` functions below mirror
the control flow of the binder loops exactly, but record the effects
instead of applying them; the simulation lemmas later show the binder
equals its plan whenever the registry is consistent with the plan's
writes. -/

/-- One primitive state effect of `set_sim_procedure`. -/
inductive Eff where
  | reg (a : Nat) (v : ProcClass × KW)
  | patch (k : Nat × String) (a : Nat)
deriving DecidableEq, Repr

/-- Apply an effect list to the project state. -/
def applyEffs : ProjState → List Eff → ProjState
  | st, [] => st
  | st, .reg a v :: es =>
    applyEffs { st with registry := ainsert st.registry a v } es
  | st, .patch k a :: es =>
    applyEffs { st with got := ainsert st.got k a } es

/-- The registry writes of an effect list. -/
def regWritesOf (es : List Eff) : List (Nat × (ProcClass × KW)) :=
  es.filterMap fun e =>
    match e with
    | .reg a v => some (a, v)
    | .patch _ _ => none

/-- The last registry write of an effect list at a given address. -/
def lastReg : List Eff → Nat → Option (ProcClass × KW)
  | [], _ => none
  | .reg a v :: es, x =>
    match lastReg es x with
    | some w => some w
    | none => if a = x then some v else none
  | .patch _ _ :: es, x => lastReg es x

/-- The last patch of an effect list at a given jump-table key. -/
def lastPatch : List Eff → (Nat × String) → Option Nat
  | [], _ => none
  | .patch k a :: es, x =>
    match lastPatch es x with
    | some w => some w
    | none => if k = x then some a else none
  | .reg _ _ :: es, x => lastPatch es x

/-- The no-collision side condition (spec §3: distinct keys "must not
collide in practice"): any two registry writes at the same address carry
the same value. -/
def writesConsistent (es : List Eff) : Prop :=
  ∀ w1 ∈ regWritesOf es, ∀ w2 ∈ regWritesOf es,
    w1.1 ≠ w2.1 ∨ w1.2 = w2.2

instance decWritesConsistent (es : List Eff) :
    Decidable (writesConsistent es) := by
  unfold writesConsistent
  infer_instance

/-- The registry holds nothing that contradicts the planned writes:
every planned address is unbound or already holds the planned value. -/
def regCompat (r : Registry) (es : List Eff) : Prop :=
  ∀ w ∈ regWritesOf es,
    alookup r w.1 = none ∨ alookup r w.1 = some w.2

/-- Effects and exception of one `set_sim_procedure` call, assuming its
overwrite guard passes. -/
def planCall (arch : Arch) (sp : SPTable) (objId : Nat)
    (lib func : String) (proc : ProcClass) (kwargs : Option KW) :
    List Eff × Option BinderErr :=
  let pseudo_addr := allocate arch lib func
  let kw := kwargs.getD []
  if func = "__libc_start_main" ∧ alookup kw "exit_addr" = none then
    match spLookup sp "libc.so.6" "exit" with
    | none => ([], some .keyError)
    | some exitProc =>
      let pa' := allocateRaw arch "__libc_start_main:exit"
      ([.reg pa' (exitProc, []),
        .reg pseudo_addr (proc, ainsert kw "exit_addr" (.addr pa')),
        .patch (objId, func) pseudo_addr], none)
  else
    ([.reg pseudo_addr (proc, kw), .patch (objId, func) pseudo_addr], none)

/-- Plan of `bindImportLibs`. -/
def planLibs (arch : Arch) (sp : SPTable) (objId : Nat) (i : String) :
    List String → List String → List Eff × List String × Option BinderErr
  | [], u => ([], u, none)
  | lib :: libs, u =>
    match alookup sp lib with
    | none => ([], u, some .keyError)
    | some simfun =>
      match alookup simfun i with
      | none => planLibs arch sp objId i libs u
      | some proc =>
        match planCall arch sp objId lib i proc none with
        | (E, some e) => (E, u, some e)
        | (E, none) =>
          match removeOnce u i with
          | none => (E, u, some .valueError)
          | some u' =>
            match planLibs arch sp objId i libs u' with
            | (E2, u2, err2) => (E ++ E2, u2, err2)

/-- Plan of `bindImportsMatched`. -/
def planMatched (arch : Arch) (sp : SPTable) (exclude : String → Bool)
    (libs : List String) (objId : Nat) :
    List String → List String → List Eff × List String × Option BinderErr
  | [], u => ([], u, none)
  | i :: is, u =>
    if exclude i then planMatched arch sp exclude libs objId is u
    else
      match planLibs arch sp objId i libs u with
      | (E, u', none) =>
        match planMatched arch sp exclude libs objId is u' with
        | (E2, u2, err2) => (E ++ E2, u2, err2)
      | (E, u', some e) => (E, u', some e)

/-- Plan of `bindUnresolved`. -/
def planUnresolved (arch : Arch) (sp : SPTable) (exclude : String → Bool)
    (ignore : List String) (obj : ObjInfo) :
    List String → List Eff × Option BinderErr
  | [] => ([], none)
  | i :: is =>
    if exclude i then planUnresolved arch sp exclude ignore obj is
    else
      let skipNative : Bool :=
        obj.resolvedImports.contains i && !(ignore.contains i) &&
          (match alookup obj.jmprel i with
           | some slot =>
             !(decide (obj.minAddr ≤ slot) && decide (slot ≤ obj.maxAddr))
           | none => false)
      if skipNative then planUnresolved arch sp exclude ignore obj is
      else
        match spLookup sp "stubs" "ReturnUnconstrained" with
        | none => ([], some .keyError)
        | some ru =>
          match planCall arch sp obj.id "stubs" i ru
              (some [("resolves", .str i)]) with
          | (E, some e) => (E, some e)
          | (E, none) =>
            match planUnresolved arch sp exclude ignore obj is with
            | (E2, err2) => (E ++ E2, err2)

/-- Plan of `bindObj`. -/
def planObj (arch : Arch) (sp : SPTable) (exclude : String → Bool)
    (ignore : List String) (libs : List String) (obj : ObjInfo)
    (u : List String) : List Eff × List String × Option BinderErr :=
  match planMatched arch sp exclude libs obj.id obj.imports
      (u ++ obj.imports) with
  | (E, u2, some e) => (E, u2, some e)
  | (E, u2, none) =>
    match planUnresolved arch sp exclude ignore obj u2 with
    | (E2, err) => (E ++ E2, u2, err)

/-- Plan of `bindObjs`. -/
def planObjs (arch : Arch) (sp : SPTable) (exclude : String → Bool)
    (ignore : List String) (libs : List String) :
    List ObjInfo → List String → List Eff × List String × Option BinderErr
  | [], u => ([], u, none)
  | obj :: objs, u =>
    match planObj arch sp exclude ignore libs obj u with
    | (E, u', none) =>
      match planObjs arch sp exclude ignore libs objs u' with
      | (E2, u2, err2) => (E ++ E2, u2, err2)
    | (E, u', some e) => (E, u', some e)

/-- Plan of `use_sim_procedures`: the full effect list and exception of
one binder run. -/
def planBinder (env : BindEnv) : List Eff × Option BinderErr :=
  match planObjs env.arch env.simProcs env.exclude env.ignore
      (findSimLibraries env) env.objs [] with
  | (E, _, err) => (E, err)

/-! ### The execution dispatcher (`sim_block` / `sim_run`,
project.py:383-450) -/

/-- What the dispatcher retains of a lifted native block: the lifting
itself (`VEXer.block`) is an external collaborator. -/
structure Block where
  addr : Nat
  thumb : Bool
deriving DecidableEq, Repr

/-- `AngrExitError` raised by `sim_block` for a misaligned address
(project.py:405-408), with the address/alignment/architecture context of
its message. -/
inductive AngrError where
  | alignmentError (addr alignment : Nat) (archName : String)
deriving DecidableEq, Repr

/-- The machine-state attributes `sim_block`/`sim_run` read:
`state.se.any_int(state.regs.ip)` (the concretized instruction pointer),
`state.thumb`, and `state.arch`. -/
structure SimState where
  ip : Nat
  thumb : Bool
  arch : Arch

/-- `sim_block` (project.py:383-411): an unaligned address is legal only
in thumb mode; otherwise it is a fatal `AngrExitError`. -/
def sim_block (state : SimState) (addr? : Option Nat) :
    Except AngrError Block :=
  let addr := addr?.getD state.ip
  if addr % state.arch.instruction_alignment ≠ 0 then
    if state.thumb then .ok ⟨addr, true⟩
    else
      .error (.alignmentError addr state.arch.instruction_alignment
        state.arch.name)
  else .ok ⟨addr, false⟩

/-- The dispatch outcome of one `sim_run` step. -/
inductive RunResult where
  | syscallHandler (addr : Nat)
  | procedure (cls : ProcClass) (addr : Nat) (kwargs : KW)
  | irsb (b : Block)
deriving DecidableEq, Repr

/-- Python substring containment (`needle in hay`). -/
def pyIn (needle hay : String) : Bool :=
  decide ((hay.splitOn needle).length > 1)

/-- `sim_run` (project.py:413-450), decision order: system-call /
fault jumpkinds first, then a registry binding at the current address,
then native lifting. -/
def sim_run (r : Registry) (state : SimState) (jumpkind : String) :
    Except AngrError RunResult :=
  let addr := state.ip
  if jumpkind = "Ijk_Sys_syscall" then .ok (.syscallHandler addr)
  else if jumpkind = "Ijk_EmFail" ∨ jumpkind = "Ijk_NoDecode" ∨
      jumpkind = "Ijk_MapFail" ∨ pyIn "Ijk_Sig" jumpkind then
    .ok (.syscallHandler addr)
  else if is_sim_procedure r addr then
    let pk := (alookup r addr).getD ("", [])
    .ok (.procedure pk.1 addr pk.2)
  else (sim_block state (some addr)).map .irsb

/-! ### Soot string-constant materialization
(`SimSootExpr_StringConstant`, constants.py:35-41 — the second class
definition, which shadows the one at lines 22-28) -/

/-- Python `str.strip(c)` for a single strip character: drop all leading
and trailing occurrences. -/
def pyStripChar (c : Char) (s : String) : String :=
  ⟨((s.data.dropWhile (· = c)).reverse.dropWhile (· = c)).reverse⟩

/-- A string reference (`SimSootValue_StringRef`), identified by its
uuid. -/
abbrev StringRef := Nat

/-- Modelled from the spec: the managed heap and uuid allocator behind
`state.memory.get_new_uuid()` / `state.memory.store` are not part of the
shown source; per the spec a string constant is "stored through an
indirection (a freshly allocated reference identifier bound to the
string value in the managed heap)". -/
structure SootState where
  uuidCounter : Nat
  heap : List (StringRef × String)
deriving DecidableEq, Repr

/-- Modelled from the spec: `get_new_uuid` returns a fresh reference
identifier. -/
def getNewUuid (st : SootState) : StringRef × SootState :=
  (st.uuidCounter, { st with uuidCounter := st.uuidCounter + 1 })

/-- `SimSootExpr_StringConstant._execute` (constants.py:35-41): strip
the quotes soot introduced, allocate a fresh reference, store the string
value behind it, and produce the reference. -/
def execStringConstant (raw : String) (st : SootState) :
    StringRef × SootState :=
  let str_val := pyStripChar '"' raw
  let (uuid, st1) := getNewUuid st
  (uuid, { st1 with heap := ainsert st1.heap uuid str_val })

/-! ### Java iterator procedures (`IteratorHasNext` / `IteratorNext`,
procedures/java_util/iterator.py) -/

/-- A claripy bitvector: concrete (`BVV`) or symbolic (`BVS`). -/
inductive BV where
  | BVV (v : Nat) (w : Nat)
  | BVS (name : String) (w : Nat)
deriving DecidableEq, Repr

/-- A claripy boolean: the concrete `BoolV` or a symbolic boolean. -/
inductive BoolE where
  | BoolV (b : Bool)
  | BoolS (name : String)
deriving DecidableEq, Repr

/-- Modelled from the spec: `state.solver.eval` evaluates "a value to a
concrete integer when required for control decisions"; the solver's
model is an explicit assignment of the symbols. -/
def evalBV (asn : String → Nat) : BV → Nat
  | .BVV v w => v % 2 ^ w
  | .BVS n w => asn n % 2 ^ w

/-- Field names `SIZE`, `INDEX`, `ELEMS` imported from
`procedures/java_util/collection.py`. Modelled from the spec: that file
is not in the shown source; the spec describes "a size field, an
element-storage reference, and a cursor-index field". -/
def SIZE : String := "size"

/-- See `SIZE`. -/
def INDEX : String := "index"

/-- See `SIZE`. -/
def ELEMS : String := "elems"

/-- Modelled from the spec: the JavaVM state as seen by the iterator
procedures — instance fields, array storage, and the solver model used
by `state.solver.eval`. -/
structure JavaState where
  fields : List ((Nat × String) × BV)
  arrays : List (Nat × List BV)
  asn : String → Nat

/-- `this_ref.load_field(state, field, ty)`; `none` models the failure
of a missing field. -/
def load_field (st : JavaState) (ref : Nat) (field : String) : Option BV :=
  alookup st.fields (ref, field)

/-- `this_ref.store_field(state, field, ty, value)`. -/
def store_field (st : JavaState) (ref : Nat) (field : String) (v : BV) :
    JavaState :=
  { st with fields := ainsert st.fields (ref, field) v }

/-- Modelled from the spec: `state.javavm_memory.load_array_element`
"loads the element at that index"; an out-of-range or unbacked read
yields an unconstrained value, not an error. -/
def load_array_element (st : JavaState) (arrayRef idx : BV) : BV :=
  match alookup st.arrays (evalBV st.asn arrayRef) with
  | some elems => elems.getD (evalBV st.asn idx) (.BVS "unconstrained" 32)
  | none => .BVS "unconstrained" 32

/-- `IteratorHasNext.run` (iterator.py:12-26): load the size and index
fields, concretize both with `solver.eval`, and return the *concrete*
boolean `claripy.BoolV(eval(index) < eval(size))`. -/
def IteratorHasNext (st : JavaState) (thisRef : Nat) : Option BoolE :=
  match load_field st thisRef SIZE, load_field st thisRef INDEX with
  | some iterator_size, some iterator_index =>
    some (.BoolV (decide (evalBV st.asn iterator_index <
      evalBV st.asn iterator_size)))
  | _, _ => none

/-- `IteratorNext.run` (iterator.py:29-46): load the element-storage
reference and index, store `BVV(eval(index) + 1, 32)` back into the
index field, and return the element loaded at the (old) index.  There is
no bounds check (the source's own `TODO should check boundaries?`). -/
def IteratorNext (st : JavaState) (thisRef : Nat) :
    Option (BV × JavaState) :=
  match load_field st thisRef ELEMS, load_field st thisRef INDEX with
  | some array_ref, some iterator_index =>
    let new_iterator_index := BV.BVV (evalBV st.asn iterator_index + 1) 32
    let st' := store_field st thisRef INDEX new_iterator_index
    some (load_array_element st' array_ref iterator_index, st')
  | _, _ => none

/-! ### Concrete instances used by witnesses and counterexamples -/

/-- A 32-bit little-endian architecture with the given instruction
alignment. -/
def archT (alignment : Nat) : Arch := ⟨32, false, alignment, "test32"⟩

/-- An iterator object state whose cursor (5) is already past the
collection size (3): the backing array holds a single element. -/
def iterOOBState : JavaState :=
  ⟨[((1, SIZE), .BVV 3 32), ((1, INDEX), .BVV 5 32),
    ((1, ELEMS), .BVV 2 32)], [(2, [.BVV 7 32])], fun _ => 0⟩

/-- An iterator object state whose size and index fields hold purely
symbolic values. -/
def iterSymState : JavaState :=
  ⟨[((1, SIZE), .BVS "n" 32), ((1, INDEX), .BVS "i" 32)], [], fun _ => 0⟩

/-- A binder environment in which the single import symbol `"f"` has a
matching SimProcedure in *two* candidate model libraries (`libA` first,
then `libB`). -/
def envC5 : BindEnv :=
  { arch := archT 4,
    simProcs := [("libA", [("f", "SimA")]), ("libB", [("f", "SimB")]),
                 ("stubs", [("ReturnUnconstrained", "RU")])],
    exclude := fun _ => false, ignore := [],
    dependencies := ["libA", "libB"], customDependencies := [],
    staticDeps := [],
    objs := [⟨0, ["f"], [], [], 0, 0⟩] }

/-- A binder environment with one matched import (`f` in `libA`), one
stub-bound import (`g`), and a simuvex table providing the `exit` and
`ReturnUnconstrained` procedures. -/
def envC6 : BindEnv :=
  { arch := archT 4,
    simProcs := [("libA", [("f", "SimA")]),
                 ("libc.so.6", [("exit", "SimExit")]),
                 ("stubs", [("ReturnUnconstrained", "RU")])],
    exclude := fun _ => false, ignore := [],
    dependencies := ["libA"], customDependencies := [], staticDeps := [],
    objs := [⟨0, ["f", "g"], [], [], 0, 0⟩] }

/-! ### Helper lemmas -/

/-- Reference check of the MD5 embedding: the digest of the empty
string is `d41d8cd98f00b204e9800998ecf8427e`. -/
theorem md5_empty_digest :
    md5 [] = [212, 29, 140, 217, 143, 0, 178, 4, 233, 128, 9, 152, 236,
      248, 66, 126] := by decide

/-- Reference check of the MD5 embedding: the digest of `"abc"` is
`900150983cd24fb0d6963f7d28e17f72`. -/
theorem md5_abc_digest :
    md5 (strBytes "abc") = [144, 1, 80, 152, 60, 210, 79, 176, 214, 150,
      63, 125, 40, 225, 127, 114] := by decide

theorem alookup_ainsert {α β : Type} [DecidableEq α]
    (l : List (α × β)) (k x : α) (v : β) :
    alookup (ainsert l k v) x = if k = x then some v else alookup l x := by
  induction l with
  | nil => by_cases hx : k = x <;> simp [ainsert, alookup, hx]
  | cons p t ih =>
    obtain ⟨k', v'⟩ := p
    by_cases hk : k' = k
    · subst hk
      by_cases hx : k' = x <;> simp [ainsert, alookup, hx]
    · by_cases hx : k' = x
      · subst hx
        have hkx : ¬k = k' := fun hh => hk hh.symm
        simp [ainsert, alookup, hk, hkx]
      · simp [ainsert, alookup, hk, hx, ih]

/-! ### C1 -/

/-- C1 counterexample: the claim "the returned address is a multiple of
that architecture's instruction-alignment unit" fails as stated.  On an
architecture whose instruction-alignment unit is 8, the synthetic
address of `("libc.so.6", "free")` (0xdcaaa22c) is ≡ 4 (mod 8):
`set_sim_procedure` rounds to a multiple of the constant 4, not of the
architecture's alignment unit. -/
theorem allocate_alignment_counterexample :
    ¬ (allocate (archT 8) "libc.so.6" "free" %
        (archT 8).instruction_alignment = 0) := by decide

/-- C1 (amended): synthetic-address allocation is pure and
deterministic — repeated calls with the same inputs yield the identical
address — and the returned address is a multiple of 4; consequently it
is a multiple of the architecture's instruction-alignment unit whenever
that unit divides 4 (as it does for the architectures the code
supports). -/
theorem allocate_pure_and_mod4 (arch : Arch) (lib func : String) :
    allocate arch lib func = allocate arch lib func ∧
    allocate arch lib func % 4 = 0 ∧
    (arch.instruction_alignment ∣ 4 →
      allocate arch lib func % arch.instruction_alignment = 0) := by
  have key : ∀ n a : Nat, a ∣ 4 → n / 4 * 4 % a = 0 := by
    intro n a ha
    obtain ⟨c, hc⟩ := ha
    rw [show n / 4 * 4 = n / 4 * c * a by rw [mul_assoc, mul_comm c, ← hc]]
    exact Nat.mul_mod_left _ _
  exact ⟨rfl, key _ 4 ⟨1, rfl⟩, fun h => key _ _ h⟩

/-- C1 witness: at the 4-aligned 32-bit architecture the amended claim's
divisibility hypothesis holds and the address is alignment-aligned. -/
theorem allocate_pure_and_mod4_witness :
    allocate (archT 4) "libA" "f" % (archT 4).instruction_alignment = 0 :=
  (allocate_pure_and_mod4 (archT 4) "libA" "f").2.2 ⟨1, rfl⟩

/-! ### C2 -/

/-- C2: after `bind(a, T, cfg)` succeeds, `lookup(a)` returns
`(T, cfg)`; a further bind at `a` with a different class `T2` is a no-op
(the whole registry is unchanged, so `lookup(a)` still returns
`(T, cfg)`): the registry never silently overwrites an existing
binding. -/
theorem bindProc_lookup_no_overwrite (r : Registry) (a : Nat)
    (T T2 : ProcClass) (cfg cfg2 : KW)
    (hsucc : conflictAt r a T = false) (hne : T2 ≠ T) :
    alookup (bindProc r a T cfg) a = some (T, cfg) ∧
    bindProc (bindProc r a T cfg) a T2 cfg2 = bindProc r a T cfg ∧
    alookup (bindProc (bindProc r a T cfg) a T2 cfg2) a = some (T, cfg) := by
  have hb : bindProc r a T cfg = ainsert r a (T, cfg) := by
    simp [bindProc, hsucc]
  have h1 : alookup (ainsert r a (T, cfg)) a = some (T, cfg) := by
    simp [alookup_ainsert]
  have h2 : conflictAt (ainsert r a (T, cfg)) a T2 = true := by
    simp [conflictAt, alookup_ainsert, Ne.symm hne]
  have h3 : bindProc (ainsert r a (T, cfg)) a T2 cfg2 =
      ainsert r a (T, cfg) := by
    simp [bindProc, h2]
  rw [hb]
  exact ⟨h1, h3, by rw [h3]; exact h1⟩

/-- C2 witness at a concrete registry. -/
theorem bindProc_lookup_no_overwrite_witness :
    alookup (bindProc [] 5 "SimA" []) 5 = some ("SimA", []) ∧
    bindProc (bindProc [] 5 "SimA" []) 5 "SimB" [("k", .str "v")] =
      bindProc [] 5 "SimA" [] ∧
    alookup (bindProc (bindProc [] 5 "SimA" []) 5 "SimB"
      [("k", .str "v")]) 5 = some ("SimA", []) :=
  bindProc_lookup_no_overwrite [] 5 "SimA" "SimB" [] [("k", .str "v")]
    (by decide) (by decide)

/-! ### C3 -/

/-- C3: when the pending jumpkind is the system-call marker
`"Ijk_Sys_syscall"` and the instruction-pointer address also has a
registry binding, `sim_run` invokes the system-call handler, not the
bound SimProcedure. -/
theorem simRun_syscall_precedence (r : Registry) (state : SimState)
    (h : is_sim_procedure r state.ip = true) :
    sim_run r state "Ijk_Sys_syscall" = .ok (.syscallHandler state.ip) := by
  simp [sim_run]

/-- C3 witness: a state whose address 100 is bound in the registry. -/
theorem simRun_syscall_precedence_witness :
    sim_run [(100, ("SimA", []))] ⟨100, false, archT 4⟩ "Ijk_Sys_syscall" =
      .ok (.syscallHandler 100) :=
  simRun_syscall_precedence [(100, ("SimA", []))] ⟨100, false, archT 4⟩
    (by decide)

/-! ### C4 -/

/-- C4: at an address that is not a multiple of the architecture's
instruction-alignment unit, `sim_block` raises the fatal alignment
error when the state's thumb flag is unset, and succeeds (lifting in
thumb mode) when it is set. -/
theorem simBlock_alignment (state : SimState) (addr : Nat)
    (h : addr % state.arch.instruction_alignment ≠ 0) :
    (state.thumb = false →
      sim_block state (some addr) =
        .error (.alignmentError addr state.arch.instruction_alignment
          state.arch.name)) ∧
    (state.thumb = true → sim_block state (some addr) = .ok ⟨addr, true⟩) := by
  constructor <;> intro ht <;> simp [sim_block, h, ht]

/-- C4 witness: address 2 on a 4-aligned architecture. -/
theorem simBlock_alignment_witness :
    sim_block ⟨0, false, archT 4⟩ (some 2) =
      .error (.alignmentError 2 4 "test32") ∧
    sim_block ⟨0, true, archT 4⟩ (some 2) = .ok ⟨2, true⟩ :=
  ⟨(simBlock_alignment ⟨0, false, archT 4⟩ 2 (by decide)).1 rfl,
   (simBlock_alignment ⟨0, true, archT 4⟩ 2 (by decide)).2 rfl⟩

/-! ### C5 -/

/-- C5: when an unresolved import matches a model in more than one
candidate library, the code does *not* stop at the first match: the
matched-import loop has no `break`, so both libraries' models are bound
(two registry bindings at two synthetic addresses), the jump slot is
patched twice — the *second* library's model ending up as the target —
and the second `unresolved.remove` then raises an uncaught
`ValueError`.  Evaluated at `envC5`: `allocate("libA","f") =
0x8be958c8`, `allocate("libB","f") = 0x936fe530`, and the final patch
for `"f"` targets `libB`'s address. -/
theorem useSimProcedures_double_match :
    useSimProcedures envC5 ⟨[], []⟩ =
      (⟨[(2347325640, ("SimA", [])), (2473583920, ("SimB", []))],
        [((0, "f"), 2473583920)]⟩, some .valueError) := by decide

/-! ### C6 infrastructure: effect lemmas -/

theorem applyEffs_append (st : ProjState) (es1 es2 : List Eff) :
    applyEffs st (es1 ++ es2) = applyEffs (applyEffs st es1) es2 := by
  induction es1 generalizing st with
  | nil => rfl
  | cons e es ih => cases e <;> simp [applyEffs, ih]

theorem regWritesOf_append (es1 es2 : List Eff) :
    regWritesOf (es1 ++ es2) = regWritesOf es1 ++ regWritesOf es2 := by
  simp [regWritesOf, List.filterMap_append]

theorem alookup_applyEffs_registry (st : ProjState) (es : List Eff)
    (x : Nat) :
    alookup (applyEffs st es).registry x =
      match lastReg es x with
      | some w => some w
      | none => alookup st.registry x := by
  induction es generalizing st with
  | nil => rfl
  | cons e es ih =>
    cases e with
    | reg a v =>
      rw [applyEffs, ih]
      cases h : lastReg es x with
      | some w => simp [lastReg, h]
      | none =>
        by_cases hax : a = x <;>
          simp [lastReg, h, hax, alookup_ainsert]
    | patch k a =>
      rw [applyEffs, ih]
      cases h : lastReg es x with
      | some w => simp [lastReg, h]
      | none => simp [lastReg, h]

theorem alookup_applyEffs_got (st : ProjState) (es : List Eff)
    (x : Nat × String) :
    alookup (applyEffs st es).got x =
      match lastPatch es x with
      | some w => some w
      | none => alookup st.got x := by
  induction es generalizing st with
  | nil => rfl
  | cons e es ih =>
    cases e with
    | patch k a =>
      rw [applyEffs, ih]
      cases h : lastPatch es x with
      | some w => simp [lastPatch, h]
      | none =>
        by_cases hax : k = x <;>
          simp [lastPatch, h, hax, alookup_ainsert]
    | reg a v =>
      rw [applyEffs, ih]
      cases h : lastPatch es x with
      | some w => simp [lastPatch, h]
      | none => simp [lastPatch, h]

theorem lastReg_mem {es : List Eff} {x : Nat} {v : ProcClass × KW}
    (h : lastReg es x = some v) : (x, v) ∈ regWritesOf es := by
  induction es with
  | nil => simp [lastReg] at h
  | cons e es ih =>
    cases e with
    | reg a w =>
      rw [lastReg] at h
      cases hl : lastReg es x with
      | some u =>
        rw [hl] at h
        injection h with h
        subst h
        simp [regWritesOf]
        right
        have := ih hl
        simpa [regWritesOf] using this
      | none =>
        rw [hl] at h
        by_cases hax : a = x
        · rw [if_pos hax] at h
          injection h with h
          subst h
          subst hax
          simp [regWritesOf]
        · rw [if_neg hax] at h
          cases h
    | patch k a =>
      rw [lastReg] at h
      have := ih h
      simpa [regWritesOf] using this

theorem regCompat_applyEffs {st : ProjState} {es W : List Eff}
    (hW : writesConsistent W)
    (hc : regCompat st.registry W)
    (hsub : ∀ w ∈ regWritesOf es, w ∈ regWritesOf W) :
    regCompat (applyEffs st es).registry W := by
  intro w hw
  rw [alookup_applyEffs_registry]
  cases hl : lastReg es w.1 with
  | none => exact hc w hw
  | some v =>
    right
    have hmem : (w.1, v) ∈ regWritesOf W := hsub _ (lastReg_mem hl)
    rcases hW (w.1, v) hmem w hw with hne | heq
    · exact absurd rfl hne
    · simp at heq
      rw [heq]

theorem findSimLibraries_isSome (env : BindEnv) :
    ∀ lib ∈ findSimLibraries env, (alookup env.simProcs lib).isSome = true := by
  intro lib hlib
  simp only [findSimLibraries, List.mem_filterMap] at hlib
  obtain ⟨a, -, hfa⟩ := hlib
  by_cases hs : (alookup env.simProcs
      (if (if a = "libc.so.0" then "libc.so.6" else a) = "ld-uClibc.so.0"
       then "ld-uClibc.so.6"
       else if a = "libc.so.0" then "libc.so.6" else a)).isSome = true
  · simp only [hs, if_true] at hfa
    injection hfa with hfa
    rw [← hfa]
    exact hs
  · simp only [Bool.not_eq_true] at hs
    simp only [hs, Bool.false_eq_true, if_false] at hfa
    cases hfa

theorem conflictAt_eq_false_of_compat {r : Registry} {W : List Eff}
    {a : Nat} {p : ProcClass} {kw : KW}
    (hc : regCompat r W) (hw : (a, (p, kw)) ∈ regWritesOf W) :
    conflictAt r a p = false := by
  rcases hc _ hw with h | h <;> simp [conflictAt, h]

theorem planCall_err_none (arch : Arch) (sp : SPTable) (objId : Nat)
    (lib func : String) (proc : ProcClass) (kwargs : Option KW)
    (hexit : (spLookup sp "libc.so.6" "exit").isSome = true) :
    (planCall arch sp objId lib func proc kwargs).2 = none := by
  obtain ⟨e, he⟩ := Option.isSome_iff_exists.mp hexit
  by_cases hf : func = "__libc_start_main" ∧
      alookup (kwargs.getD []) "exit_addr" = none
  · simp [planCall, hf, he]
  · simp [planCall, hf]

theorem setSimProcedure_eq_plan {W : List Eff} (arch : Arch) (sp : SPTable)
    (objId : Nat) (lib func : String) (proc : ProcClass)
    (kwargs : Option KW) (st : ProjState)
    (hexit : (spLookup sp "libc.so.6" "exit").isSome = true)
    (hc : regCompat st.registry W)
    (hsub : ∀ w ∈ regWritesOf (planCall arch sp objId lib func proc kwargs).1,
      w ∈ regWritesOf W) :
    setSimProcedure arch sp objId lib func proc kwargs st =
      (applyEffs st (planCall arch sp objId lib func proc kwargs).1,
       (planCall arch sp objId lib func proc kwargs).2) := by
  obtain ⟨e, he⟩ := Option.isSome_iff_exists.mp hexit
  by_cases hf : func = "__libc_start_main" ∧
      alookup (kwargs.getD []) "exit_addr" = none
  · obtain ⟨hf1, hf2⟩ := hf
    subst hf1
    have hplan : planCall arch sp objId lib "__libc_start_main" proc kwargs =
        ([.reg (allocateRaw arch "__libc_start_main:exit") (e, []),
          .reg (allocate arch lib "__libc_start_main")
            (proc, ainsert (kwargs.getD []) "exit_addr"
              (.addr (allocateRaw arch "__libc_start_main:exit"))),
          .patch (objId, "__libc_start_main")
            (allocate arch lib "__libc_start_main")], none) := by
      simp [planCall, hf2, he]
    have hw : (allocate arch lib "__libc_start_main",
        (proc, ainsert (kwargs.getD []) "exit_addr"
          (.addr (allocateRaw arch "__libc_start_main:exit")))) ∈
        regWritesOf W := by
      apply hsub
      rw [hplan]
      simp [regWritesOf]
    have hconf := conflictAt_eq_false_of_compat hc hw
    rw [hplan]
    simp [setSimProcedure, hconf, hf2, he, applyEffs]
  · have hplan : planCall arch sp objId lib func proc kwargs =
        ([.reg (allocate arch lib func) (proc, kwargs.getD []),
          .patch (objId, func) (allocate arch lib func)], none) := by
      simp [planCall, hf]
    have hw : (allocate arch lib func, (proc, kwargs.getD [])) ∈
        regWritesOf W := by
      apply hsub
      rw [hplan]
      simp [regWritesOf]
    have hconf := conflictAt_eq_false_of_compat hc hw
    rw [hplan]
    simp [setSimProcedure, hconf, hf, applyEffs]

theorem bindImportLibs_eq_plan {W : List Eff} (arch : Arch) (sp : SPTable)
    (objId : Nat) (i : String) (libs : List String) (u : List String)
    (st : ProjState)
    (hW : writesConsistent W)
    (hexit : (spLookup sp "libc.so.6" "exit").isSome = true)
    (hlibs : ∀ lib ∈ libs, (alookup sp lib).isSome = true)
    (hc : regCompat st.registry W)
    (hsub : ∀ w ∈ regWritesOf (planLibs arch sp objId i libs u).1,
      w ∈ regWritesOf W) :
    bindImportLibs arch sp objId i libs (st, u) =
      ((applyEffs st (planLibs arch sp objId i libs u).1,
        (planLibs arch sp objId i libs u).2.1),
       (planLibs arch sp objId i libs u).2.2) := by
  revert hlibs hc hsub
  induction libs generalizing u st with
  | nil =>
    intro hlibs hc hsub
    simp [bindImportLibs, planLibs, applyEffs]
  | cons lib libs ih =>
    intro hlibs hc hsub
    obtain ⟨simfun, hsf⟩ :=
      Option.isSome_iff_exists.mp (hlibs lib (List.mem_cons_self _ _))
    have hlibs' : ∀ l ∈ libs, (alookup sp l).isSome = true :=
      fun l hl => hlibs l (List.mem_cons_of_mem _ hl)
    cases hfi : alookup simfun i with
    | none =>
      have hpl : planLibs arch sp objId i (lib :: libs) u =
          planLibs arch sp objId i libs u := by
        simp [planLibs, hsf, hfi]
      rw [hpl] at hsub ⊢
      simp only [bindImportLibs, hsf, hfi]
      exact ih u st hlibs' hc hsub
    | some proc =>
      have hpcerr := planCall_err_none arch sp objId lib i proc none hexit
      obtain ⟨E, hpc⟩ : ∃ E,
          planCall arch sp objId lib i proc none = (E, none) :=
        ⟨(planCall arch sp objId lib i proc none).1, by rw [← hpcerr]⟩
      cases hrm : removeOnce u i with
      | none =>
        have hplanEq : planLibs arch sp objId i (lib :: libs) u =
            (E, u, some .valueError) := by
          simp [planLibs, hsf, hfi, hpc, hrm]
        rw [hplanEq] at hsub ⊢
        have hcall := setSimProcedure_eq_plan (W := W) arch sp objId lib i
          proc none st hexit hc (by rw [hpc]; exact hsub)
        rw [hpc] at hcall
        simp [bindImportLibs, hsf, hfi, hcall, hrm]
      | some u' =>
        rcases hp : planLibs arch sp objId i libs u' with ⟨E2, u2, err2⟩
        have hplanEq : planLibs arch sp objId i (lib :: libs) u =
            (E ++ E2, u2, err2) := by
          simp [planLibs, hsf, hfi, hpc, hrm, hp]
        rw [hplanEq] at hsub ⊢
        have hsubE : ∀ w ∈ regWritesOf E, w ∈ regWritesOf W := by
          intro w hw
          apply hsub w
          show w ∈ regWritesOf (E ++ E2)
          rw [regWritesOf_append]
          exact List.mem_append_left _ hw
        have hsubE2 : ∀ w ∈ regWritesOf E2, w ∈ regWritesOf W := by
          intro w hw
          apply hsub w
          show w ∈ regWritesOf (E ++ E2)
          rw [regWritesOf_append]
          exact List.mem_append_right _ hw
        have hcall := setSimProcedure_eq_plan (W := W) arch sp objId lib i
          proc none st hexit hc (by rw [hpc]; exact hsubE)
        rw [hpc] at hcall
        have hc' : regCompat (applyEffs st E).registry W :=
          regCompat_applyEffs hW hc hsubE
        have ihh := ih u' (applyEffs st E) hlibs' hc'
          (by rw [hp]; exact hsubE2)
        rw [hp] at ihh
        simp only [bindImportLibs, hsf, hfi, hcall, hrm, ihh,
          applyEffs_append]

theorem bindImportsMatched_eq_plan {W : List Eff} (arch : Arch)
    (sp : SPTable) (exclude : String → Bool) (libs : List String)
    (objId : Nat) (is u : List String) (st : ProjState)
    (hW : writesConsistent W)
    (hexit : (spLookup sp "libc.so.6" "exit").isSome = true)
    (hlibs : ∀ lib ∈ libs, (alookup sp lib).isSome = true)
    (hc : regCompat st.registry W)
    (hsub : ∀ w ∈
      regWritesOf (planMatched arch sp exclude libs objId is u).1,
      w ∈ regWritesOf W) :
    bindImportsMatched arch sp exclude libs objId is (st, u) =
      ((applyEffs st (planMatched arch sp exclude libs objId is u).1,
        (planMatched arch sp exclude libs objId is u).2.1),
       (planMatched arch sp exclude libs objId is u).2.2) := by
  revert hc hsub
  induction is generalizing u st with
  | nil =>
    intro hc hsub
    simp [bindImportsMatched, planMatched, applyEffs]
  | cons i is ihM =>
    intro hc hsub
    by_cases hex : exclude i = true
    · have hpl : planMatched arch sp exclude libs objId (i :: is) u =
          planMatched arch sp exclude libs objId is u := by
        simp [planMatched, hex]
      rw [hpl] at hsub ⊢
      simp only [bindImportsMatched, hex, if_true]
      exact ihM u st hc hsub
    · rcases hpL : planLibs arch sp objId i libs u with ⟨E, u', err⟩
      cases err with
      | some e =>
        have hplanEq : planMatched arch sp exclude libs objId (i :: is) u =
            (E, u', some e) := by
          simp [planMatched, hex, hpL]
        rw [hplanEq] at hsub ⊢
        have hlib := bindImportLibs_eq_plan (W := W) arch sp objId i libs u
          st hW hexit hlibs hc (by rw [hpL]; exact hsub)
        rw [hpL] at hlib
        simp [bindImportsMatched, hex, hlib]
      | none =>
        rcases hpM : planMatched arch sp exclude libs objId is u' with
          ⟨E2, u2, err2⟩
        have hplanEq : planMatched arch sp exclude libs objId (i :: is) u =
            (E ++ E2, u2, err2) := by
          simp [planMatched, hex, hpL, hpM]
        rw [hplanEq] at hsub ⊢
        have hsubE : ∀ w ∈ regWritesOf E, w ∈ regWritesOf W := by
          intro w hw
          apply hsub w
          show w ∈ regWritesOf (E ++ E2)
          rw [regWritesOf_append]
          exact List.mem_append_left _ hw
        have hsubE2 : ∀ w ∈ regWritesOf E2, w ∈ regWritesOf W := by
          intro w hw
          apply hsub w
          show w ∈ regWritesOf (E ++ E2)
          rw [regWritesOf_append]
          exact List.mem_append_right _ hw
        have hlib := bindImportLibs_eq_plan (W := W) arch sp objId i libs u
          st hW hexit hlibs hc (by rw [hpL]; exact hsubE)
        rw [hpL] at hlib
        have hc' : regCompat (applyEffs st E).registry W :=
          regCompat_applyEffs hW hc hsubE
        have ihh := ihM u' (applyEffs st E) hc' (by rw [hpM]; exact hsubE2)
        rw [hpM] at ihh
        simp only [bindImportsMatched, hex, if_false, hlib, ihh,
          applyEffs_append, Bool.false_eq_true]

theorem bindUnresolved_eq_plan {W : List Eff} (arch : Arch) (sp : SPTable)
    (exclude : String → Bool) (ignore : List String) (obj : ObjInfo)
    (is : List String) (st : ProjState)
    (hW : writesConsistent W)
    (hexit : (spLookup sp "libc.so.6" "exit").isSome = true)
    (hstub : (spLookup sp "stubs" "ReturnUnconstrained").isSome = true)
    (hc : regCompat st.registry W)
    (hsub : ∀ w ∈
      regWritesOf (planUnresolved arch sp exclude ignore obj is).1,
      w ∈ regWritesOf W) :
    bindUnresolved arch sp exclude ignore obj is st =
      (applyEffs st (planUnresolved arch sp exclude ignore obj is).1,
       (planUnresolved arch sp exclude ignore obj is).2) := by
  revert hc hsub
  induction is generalizing st with
  | nil =>
    intro hc hsub
    simp [bindUnresolved, planUnresolved, applyEffs]
  | cons i is ihU =>
    intro hc hsub
    by_cases hex : exclude i = true
    · have hpl : planUnresolved arch sp exclude ignore obj (i :: is) =
          planUnresolved arch sp exclude ignore obj is := by
        simp [planUnresolved, hex]
      rw [hpl] at hsub ⊢
      simp only [bindUnresolved, hex, if_true]
      exact ihU st hc hsub
    · by_cases hskip : (obj.resolvedImports.contains i &&
          !(ignore.contains i) &&
          (match alookup obj.jmprel i with
           | some slot =>
             !(decide (obj.minAddr ≤ slot) && decide (slot ≤ obj.maxAddr))
           | none => false)) = true
      · have hpl : planUnresolved arch sp exclude ignore obj (i :: is) =
            planUnresolved arch sp exclude ignore obj is := by
          simp only [planUnresolved, hex, Bool.false_eq_true, if_false,
            hskip, if_true]
        rw [hpl] at hsub ⊢
        simp only [bindUnresolved, hex, Bool.false_eq_true, if_false,
          hskip, if_true]
        exact ihU st hc hsub
      · obtain ⟨ru, hru⟩ := Option.isSome_iff_exists.mp hstub
        have hpcerr := planCall_err_none arch sp obj.id "stubs" i ru
          (some [("resolves", .str i)]) hexit
        obtain ⟨E, hpc⟩ : ∃ E, planCall arch sp obj.id "stubs" i ru
            (some [("resolves", .str i)]) = (E, none) :=
          ⟨(planCall arch sp obj.id "stubs" i ru
            (some [("resolves", .str i)])).1, by rw [← hpcerr]⟩
        rcases hpU : planUnresolved arch sp exclude ignore obj is with
          ⟨E2, err2⟩
        have hplanEq : planUnresolved arch sp exclude ignore obj (i :: is) =
            (E ++ E2, err2) := by
          simp only [planUnresolved, hex, Bool.false_eq_true, if_false,
            hskip, hru, hpc, hpU]
        rw [hplanEq] at hsub ⊢
        have hsubE : ∀ w ∈ regWritesOf E, w ∈ regWritesOf W := by
          intro w hw
          apply hsub w
          show w ∈ regWritesOf (E ++ E2)
          rw [regWritesOf_append]
          exact List.mem_append_left _ hw
        have hsubE2 : ∀ w ∈ regWritesOf E2, w ∈ regWritesOf W := by
          intro w hw
          apply hsub w
          show w ∈ regWritesOf (E ++ E2)
          rw [regWritesOf_append]
          exact List.mem_append_right _ hw
        have hcall := setSimProcedure_eq_plan (W := W) arch sp obj.id
          "stubs" i ru (some [("resolves", .str i)]) st hexit hc
          (by rw [hpc]; exact hsubE)
        rw [hpc] at hcall
        have hc' : regCompat (applyEffs st E).registry W :=
          regCompat_applyEffs hW hc hsubE
        have ihh := ihU (applyEffs st E) hc' (by rw [hpU]; exact hsubE2)
        rw [hpU] at ihh
        simp only [bindUnresolved, hex, Bool.false_eq_true, if_false,
          hskip, hru, hcall, ihh, applyEffs_append]

theorem bindObj_eq_plan {W : List Eff} (arch : Arch) (sp : SPTable)
    (exclude : String → Bool) (ignore : List String) (libs : List String)
    (obj : ObjInfo) (u : List String) (st : ProjState)
    (hW : writesConsistent W)
    (hexit : (spLookup sp "libc.so.6" "exit").isSome = true)
    (hstub : (spLookup sp "stubs" "ReturnUnconstrained").isSome = true)
    (hlibs : ∀ lib ∈ libs, (alookup sp lib).isSome = true)
    (hc : regCompat st.registry W)
    (hsub : ∀ w ∈
      regWritesOf (planObj arch sp exclude ignore libs obj u).1,
      w ∈ regWritesOf W) :
    bindObj arch sp exclude ignore libs obj (st, u) =
      ((applyEffs st (planObj arch sp exclude ignore libs obj u).1,
        (planObj arch sp exclude ignore libs obj u).2.1),
       (planObj arch sp exclude ignore libs obj u).2.2) := by
  rcases hpM : planMatched arch sp exclude libs obj.id obj.imports
      (u ++ obj.imports) with ⟨E, u2, err⟩
  cases err with
  | some e =>
    have hplanEq : planObj arch sp exclude ignore libs obj u =
        (E, u2, some e) := by
      simp [planObj, hpM]
    rw [hplanEq] at hsub ⊢
    have hm := bindImportsMatched_eq_plan (W := W) arch sp exclude libs
      obj.id obj.imports (u ++ obj.imports) st hW hexit hlibs hc
      (by rw [hpM]; exact hsub)
    rw [hpM] at hm
    simp [bindObj, hm]
  | none =>
    rcases hpU : planUnresolved arch sp exclude ignore obj u2 with
      ⟨E2, err2⟩
    have hplanEq : planObj arch sp exclude ignore libs obj u =
        (E ++ E2, u2, err2) := by
      simp [planObj, hpM, hpU]
    rw [hplanEq] at hsub ⊢
    have hsubE : ∀ w ∈ regWritesOf E, w ∈ regWritesOf W := by
      intro w hw
      apply hsub w
      show w ∈ regWritesOf (E ++ E2)
      rw [regWritesOf_append]
      exact List.mem_append_left _ hw
    have hsubE2 : ∀ w ∈ regWritesOf E2, w ∈ regWritesOf W := by
      intro w hw
      apply hsub w
      show w ∈ regWritesOf (E ++ E2)
      rw [regWritesOf_append]
      exact List.mem_append_right _ hw
    have hm := bindImportsMatched_eq_plan (W := W) arch sp exclude libs
      obj.id obj.imports (u ++ obj.imports) st hW hexit hlibs hc
      (by rw [hpM]; exact hsubE)
    rw [hpM] at hm
    have hc' : regCompat (applyEffs st E).registry W :=
      regCompat_applyEffs hW hc hsubE
    have hu := bindUnresolved_eq_plan (W := W) arch sp exclude ignore obj
      u2 (applyEffs st E) hW hexit hstub hc'
      (by rw [hpU]; exact hsubE2)
    rw [hpU] at hu
    simp only [bindObj, hm, hu, applyEffs_append]

theorem bindObjs_eq_plan {W : List Eff} (arch : Arch) (sp : SPTable)
    (exclude : String → Bool) (ignore : List String) (libs : List String)
    (objs : List ObjInfo) (u : List String) (st : ProjState)
    (hW : writesConsistent W)
    (hexit : (spLookup sp "libc.so.6" "exit").isSome = true)
    (hstub : (spLookup sp "stubs" "ReturnUnconstrained").isSome = true)
    (hlibs : ∀ lib ∈ libs, (alookup sp lib).isSome = true)
    (hc : regCompat st.registry W)
    (hsub : ∀ w ∈
      regWritesOf (planObjs arch sp exclude ignore libs objs u).1,
      w ∈ regWritesOf W) :
    bindObjs arch sp exclude ignore libs objs (st, u) =
      ((applyEffs st (planObjs arch sp exclude ignore libs objs u).1,
        (planObjs arch sp exclude ignore libs objs u).2.1),
       (planObjs arch sp exclude ignore libs objs u).2.2) := by
  revert hc hsub
  induction objs generalizing u st with
  | nil =>
    intro hc hsub
    simp [bindObjs, planObjs, applyEffs]
  | cons obj objs ihO =>
    intro hc hsub
    rcases hpO : planObj arch sp exclude ignore libs obj u with ⟨E, u', err⟩
    cases err with
    | some e =>
      have hplanEq : planObjs arch sp exclude ignore libs (obj :: objs) u =
          (E, u', some e) := by
        simp [planObjs, hpO]
      rw [hplanEq] at hsub ⊢
      have ho := bindObj_eq_plan (W := W) arch sp exclude ignore libs obj
        u st hW hexit hstub hlibs hc (by rw [hpO]; exact hsub)
      rw [hpO] at ho
      simp [bindObjs, ho]
    | none =>
      rcases hpOs : planObjs arch sp exclude ignore libs objs u' with
        ⟨E2, u2, err2⟩
      have hplanEq : planObjs arch sp exclude ignore libs (obj :: objs) u =
          (E ++ E2, u2, err2) := by
        simp [planObjs, hpO, hpOs]
      rw [hplanEq] at hsub ⊢
      have hsubE : ∀ w ∈ regWritesOf E, w ∈ regWritesOf W := by
        intro w hw
        apply hsub w
        show w ∈ regWritesOf (E ++ E2)
        rw [regWritesOf_append]
        exact List.mem_append_left _ hw
      have hsubE2 : ∀ w ∈ regWritesOf E2, w ∈ regWritesOf W := by
        intro w hw
        apply hsub w
        show w ∈ regWritesOf (E ++ E2)
        rw [regWritesOf_append]
        exact List.mem_append_right _ hw
      have ho := bindObj_eq_plan (W := W) arch sp exclude ignore libs obj
        u st hW hexit hstub hlibs hc (by rw [hpO]; exact hsubE)
      rw [hpO] at ho
      have hc' : regCompat (applyEffs st E).registry W :=
        regCompat_applyEffs hW hc hsubE
      have ihh := ihO u' (applyEffs st E) hc' (by rw [hpOs]; exact hsubE2)
      rw [hpOs] at ihh
      simp only [bindObjs, ho, ihh, applyEffs_append]

theorem useSimProcedures_eq_plan (env : BindEnv) (st : ProjState)
    (hW : writesConsistent (planBinder env).1)
    (hexit : (spLookup env.simProcs "libc.so.6" "exit").isSome = true)
    (hstub :
      (spLookup env.simProcs "stubs" "ReturnUnconstrained").isSome = true)
    (hc : regCompat st.registry (planBinder env).1) :
    useSimProcedures env st =
      (applyEffs st (planBinder env).1, (planBinder env).2) := by
  rcases hpO : planObjs env.arch env.simProcs env.exclude env.ignore
      (findSimLibraries env) env.objs [] with ⟨E, u, err⟩
  have hpb : planBinder env = (E, err) := by
    simp [planBinder, hpO]
  rw [hpb] at hW hc ⊢
  have hb := bindObjs_eq_plan (W := E) env.arch env.simProcs env.exclude
    env.ignore (findSimLibraries env) env.objs [] st hW hexit hstub
    (findSimLibraries_isSome env) hc (by rw [hpO]; exact fun w hw => hw)
  rw [hpO] at hb
  simp [useSimProcedures, hb]

/-! ### C6 -/

/-- C6: import binding is idempotent.  Starting from a fresh registry,
under the spec's no-collision invariant (`writesConsistent`: distinct
synthetic addresses never carry conflicting bindings) and given that the
simuvex table provides the `exit` and `ReturnUnconstrained` procedures,
running the binder a second time raises the same exception (if any) and
leaves every registry binding and every jump-table patch exactly as
after the first run — no duplicate or conflicting patches. -/
theorem useSimProcedures_idempotent (env : BindEnv) (st0 : ProjState)
    (hreg : st0.registry = [])
    (hW : writesConsistent (planBinder env).1)
    (hexit : (spLookup env.simProcs "libc.so.6" "exit").isSome = true)
    (hstub :
      (spLookup env.simProcs "stubs" "ReturnUnconstrained").isSome = true) :
    (useSimProcedures env (useSimProcedures env st0).1).2 =
      (useSimProcedures env st0).2 ∧
    (∀ a, alookup
        (useSimProcedures env (useSimProcedures env st0).1).1.registry a =
      alookup (useSimProcedures env st0).1.registry a) ∧
    (∀ k, alookup
        (useSimProcedures env (useSimProcedures env st0).1).1.got k =
      alookup (useSimProcedures env st0).1.got k) := by
  have hc0 : regCompat st0.registry (planBinder env).1 := by
    rw [hreg]
    intro w _
    left
    rfl
  have h1 := useSimProcedures_eq_plan env st0 hW hexit hstub hc0
  have hc1 : regCompat (useSimProcedures env st0).1.registry
      (planBinder env).1 := by
    rw [h1]
    exact regCompat_applyEffs hW hc0 (fun w hw => hw)
  have h2 := useSimProcedures_eq_plan env (useSimProcedures env st0).1 hW
    hexit hstub hc1
  refine ⟨by rw [h2, h1], fun a => ?_, fun k => ?_⟩
  · rw [h2, h1]
    simp only [alookup_applyEffs_registry]
    cases lastReg (planBinder env).1 a <;> rfl
  · rw [h2, h1]
    simp only [alookup_applyEffs_got]
    cases lastPatch (planBinder env).1 k <;> rfl

/-- C6 witness: a concrete environment with a matched and a stub-bound
import, whose planned writes are collision-free. -/
theorem useSimProcedures_idempotent_witness :
    (useSimProcedures envC6 (useSimProcedures envC6 ⟨[], []⟩).1).2 =
      (useSimProcedures envC6 ⟨[], []⟩).2 ∧
    (∀ a, alookup (useSimProcedures envC6
        (useSimProcedures envC6 ⟨[], []⟩).1).1.registry a =
      alookup (useSimProcedures envC6 ⟨[], []⟩).1.registry a) ∧
    (∀ k, alookup (useSimProcedures envC6
        (useSimProcedures envC6 ⟨[], []⟩).1).1.got k =
      alookup (useSimProcedures envC6 ⟨[], []⟩).1.got k) :=
  useSimProcedures_idempotent envC6 ⟨[], []⟩ rfl (by decide) (by decide)
    (by decide)

/-! ### C7 -/

/-- C7: for a collection iterator with concrete size 3, elements
`[x, y, z]` and starting index 0, `hasNext` is the concrete true at
indices 0, 1, 2 and false at index 3, and three consecutive `next`
calls return `x`, `y`, `z` in order, leaving the index field at 3. -/
theorem iterator_roundtrip (x y z : BV) (asn : String → Nat) :
    let s0 : JavaState :=
      ⟨[((1, INDEX), .BVV 0 32), ((1, SIZE), .BVV 3 32),
        ((1, ELEMS), .BVV 2 32)], [(2, [x, y, z])], asn⟩
    let s1 := store_field s0 1 INDEX (.BVV 1 32)
    let s2 := store_field s1 1 INDEX (.BVV 2 32)
    let s3 := store_field s2 1 INDEX (.BVV 3 32)
    IteratorHasNext s0 1 = some (.BoolV true) ∧
    IteratorHasNext s1 1 = some (.BoolV true) ∧
    IteratorHasNext s2 1 = some (.BoolV true) ∧
    IteratorHasNext s3 1 = some (.BoolV false) ∧
    IteratorNext s0 1 = some (x, s1) ∧
    IteratorNext s1 1 = some (y, s2) ∧
    IteratorNext s2 1 = some (z, s3) ∧
    load_field s3 1 INDEX = some (.BVV 3 32) :=
  ⟨rfl, rfl, rfl, rfl, rfl, rfl, rfl, rfl⟩

/-! ### C8 -/

/-- C8: materializing the raw literal text `"hello"` (with its soot
quotes) stores the unescaped value `hello` behind a fresh reference, and
two materializations of the identical literal yield distinct reference
identifiers (no interning) while both dereference to `hello`. -/
theorem stringConstant_materialization (st0 : SootState) :
    let p1 := execStringConstant "\"hello\"" st0
    let p2 := execStringConstant "\"hello\"" p1.2
    alookup p2.2.heap p1.1 = some "hello" ∧
    alookup p2.2.heap p2.1 = some "hello" ∧ p1.1 ≠ p2.1 := by
  have hstrip : pyStripChar '"' "\"hello\"" = "hello" := rfl
  refine ⟨?_, ?_, by simp [execStringConstant, getNewUuid]⟩ <;>
    simp [execStringConstant, getNewUuid, hstrip, alookup_ainsert]

/-! ### C9 -/

/-- C9: `IteratorNext` enforces no bounds check: for every iterator
state with the fields present — in particular one whose index is at or
past the size — it returns the element loaded at the current index and
advances the index field by exactly one, never a bounds error. -/
theorem iteratorNext_no_bounds_check (st : JavaState) (thisRef : Nat)
    (array_ref iterator_index : BV)
    (helems : load_field st thisRef ELEMS = some array_ref)
    (hindex : load_field st thisRef INDEX = some iterator_index) :
    ∃ st', IteratorNext st thisRef =
        some (load_array_element st' array_ref iterator_index, st') ∧
      load_field st' thisRef INDEX =
        some (.BVV (evalBV st.asn iterator_index + 1) 32) := by
  refine ⟨store_field st thisRef INDEX
    (.BVV (evalBV st.asn iterator_index + 1) 32), ?_, ?_⟩
  · simp [IteratorNext, helems, hindex]
  · simp [load_field, store_field, alookup_ainsert]

/-- C9 witness: an iterator whose index (5) is past its size (3) — the
next operation still succeeds and advances the index to 6. -/
theorem iteratorNext_no_bounds_check_witness :
    ∃ st', IteratorNext iterOOBState 1 =
        some (load_array_element st' (.BVV 2 32) (.BVV 5 32), st') ∧
      load_field st' 1 INDEX =
        some (.BVV (evalBV iterOOBState.asn (.BVV 5 32) + 1) 32) :=
  iteratorNext_no_bounds_check iterOOBState 1 (.BVV 2 32) (.BVV 5 32)
    rfl rfl

/-! ### C10 -/

/-- C10: `IteratorHasNext` always returns a concrete `BoolV` constant:
it concretizes the index and size fields with `solver.eval` before
comparing, so even symbolic fields yield a fixed concrete boolean, never
a symbolic boolean expression. -/
theorem iteratorHasNext_concrete_bool (st : JavaState) (thisRef : Nat)
    (r : BoolE) (h : IteratorHasNext st thisRef = some r) :
    ∃ b, r = .BoolV b := by
  cases hs : load_field st thisRef SIZE with
  | none => simp [IteratorHasNext, hs] at h
  | some vs =>
    cases hi : load_field st thisRef INDEX with
    | none => simp [IteratorHasNext, hs, hi] at h
    | some vi =>
      simp [IteratorHasNext, hs, hi] at h
      exact ⟨_, h.symm⟩

/-- C10 witness: an iterator whose size and index fields are purely
symbolic still produces the concrete `BoolV false`. -/
theorem iteratorHasNext_concrete_bool_witness :
    IteratorHasNext iterSymState 1 = some (.BoolV false) ∧
    ∃ b, (BoolE.BoolV false) = .BoolV b :=
  ⟨rfl, iteratorHasNext_concrete_bool iterSymState 1 (.BoolV false) rfl⟩

end Angr
